import Mathlib

/-!
Shallow embedding of src/trunk/src/common/log.c (the log distribution engine):
the severity scale, the message formatter, the sink registry and the
dispatcher, with theorems checking the specification's claims about them.

Machine integers are modelled as Int (severities) and Nat (sizes, handles);
the C strings as List Char; the intrusive linked list of logfile_t records as
a List.  Each sink record carries a ghost identity sid (no C field) used only
to observe which sink an event was delivered to.
-/

namespace TorLog

/-- Modelled from the spec: the severity constants come from log.h, which is
not under src/.  The spec fixes the order Error < Warn < Notice < Info < Debug
with more critical severities numerically smaller; the concrete values follow
the syslog convention the header uses.  Only the order matters below. -/
def LOG_ERR : Int := 3

/-- Severity constant, see LOG_ERR. -/
def LOG_WARN : Int := 4

/-- Severity constant, see LOG_ERR. -/
def LOG_NOTICE : Int := 5

/-- Severity constant, see LOG_ERR. -/
def LOG_INFO : Int := 6

/-- Severity constant, see LOG_ERR. -/
def LOG_DEBUG : Int := 7

/-- sev_to_string, log.c lines 36-45: map a severity to its descriptive
string.  The default branch of the C switch is a fatal assertion
(assert(0)), modelled as none. -/
def sev_to_string (severity : Int) : Option (List Char) :=
  if severity = LOG_DEBUG then some ("debug".toList)
  else if severity = LOG_INFO then some ("info".toList)
  else if severity = LOG_NOTICE then some ("notice".toList)
  else if severity = LOG_WARN then some ("warn".toList)
  else if severity = LOG_ERR then some ("err".toList)
  else none

/-- strcasecmp(a, b) == 0: case-insensitive string equality. -/
def lowerEq (a b : List Char) : Bool :=
  a.map Char.toLower == b.map Char.toLower

/-- parse_log_level, log.c lines 390-402: map a severity name to its numeric
value, or -1 when the name is not recognized. -/
def parse_log_level (level : List Char) : Int :=
  if lowerEq level ("err".toList) then LOG_ERR
  else if lowerEq level ("warn".toList) then LOG_WARN
  else if lowerEq level ("notice".toList) then LOG_NOTICE
  else if lowerEq level ("info".toList) then LOG_INFO
  else if lowerEq level ("debug".toList) then LOG_DEBUG
  else -1

/-- log_level_to_string, log.c lines 404-407. -/
def log_level_to_string (level : Int) : Option (List Char) :=
  sev_to_string level

/-- One registered sink: logfile_t, log.c lines 23-33.  The next pointer is
embedded by keeping the records in a List.  file is the FILE* stream,
abstracted to an optional handle identifier.  callback records whether the
log_callback field is non-NULL.  sid is a ghost identity used only by the
theorems to observe which sink an event went to. -/
structure Logfile where
  sid : Nat
  filename : List Char
  file : Option Nat
  needs_close : Bool
  loglevel : Int
  max_loglevel : Int
  is_temporary : Bool
  is_syslog : Bool
  callback : Bool
deriving Repr, DecidableEq

/-- An observable delivery action of the dispatcher: a syslog(3) call, a
callback invocation, or an fputs of the rendered record into a file sink
(recorded also when the write then fails and the sink is removed). -/
inductive Event where
  | syslogSend (sid : Nat) (severity : Int) (text : List Char)
  | callbackSend (sid : Nat) (severity : Int) (text : List Char)
  | fileWrite (sid : Nat) (text : List Char)
deriving Repr, DecidableEq

/-- The sink identity an event was delivered to. -/
def Event.sid : Event → Nat
  | .syslogSend i _ _ => i
  | .callbackSend i _ _ => i
  | .fileWrite i _ => i

/-- The text payload of an event. -/
def Event.text : Event → List Char
  | .syslogSend _ _ t => t
  | .callbackSend _ _ t => t
  | .fileWrite _ t => t

/-- Modelled from the spec: the bounded failure-reporting renderer
(tor_snprintf / tor_vsnprintf, whose code is in util.c, not under src/):
render(buffer, capacity, format, args) -> bytesWritten | Overflow.  Given the
full text s the formatted arguments denote, it writes as much of s as fits in
size bytes keeping one byte for the NUL terminator; the first component is
none (the C return value -1) when s did not fit whole, some bytesWritten
otherwise; the second component is what was written into the buffer. -/
def render (size : Nat) (s : List Char) : Option Nat × List Char :=
  if size = 0 then (none, [])
  else if s.length + 1 ≤ size then (some s.length, s)
  else (none, s.take (size - 1))

/-- TRUNCATED_STR, log.c line 19. -/
def TRUNCATED_STR : List Char := "[...truncated]".toList

/-- TRUNCATED_STR_LEN, log.c line 20. -/
def TRUNCATED_STR_LEN : Nat := 14

/-- The write of _log_prefix (log.c lines 57-76) into a buffer of size L.
The text pfx it renders (strftime timestamp, milliseconds and the bracketed
severity tag) depends on the wall clock, so it is a parameter here.  Returns
(the returned offset n, the buffer contents): on overflow the C code returns
buf_len - 1, and render leaves exactly L - 1 bytes, so the offset always
equals the content length. -/
def logPrefixOut (L : Nat) (pfx : List Char) : Nat × List Char :=
  match render L pfx with
  | (some r, w) => (r, w)
  | (none, w) => (L - 1, w)

/-- The rendered record format_msg leaves in the buffer: full is the buffer
contents up to the NUL, msgStart the offset end_of_prefix points at. -/
structure Formatted where
  full : List Char
  msgStart : Nat
deriving Repr, DecidableEq

/-- format_msg, log.c lines 112-143.  buf_len is the buffer capacity (10024
at the call site in logv); pfx is the text _log_prefix renders (abstract, it
reads the clock); msg is the full text the caller's format and arguments
denote.  Mirrors the source: two bytes are reserved for the newline and NUL;
the optional funcname part is rendered next (on its overflow n becomes
strlen(buf)); then the message is rendered, and on overflow the literal
TRUNCATED_STR is copied to end at offset L - 2 before the newline is placed
at offset L - 2 (n = buf_len - 2 in the source). -/
def format_msg (buf_len : Nat) (pfx : List Char) (funcname : Option (List Char))
    (msg : List Char) : Formatted :=
  let L := buf_len - 2
  let p := logPrefixOut L pfx
  let n0 := p.1
  let buf0 := p.2
  let step1 : Nat × List Char :=
    match funcname with
    | none => (n0, buf0)
    | some f =>
      match render (L - n0) (f ++ "(): ".toList) with
      | (some r, w) => (n0 + r, buf0 ++ w)
      | (none, w) => ((buf0 ++ w).length, buf0 ++ w)
  let buf1 := step1.2
  let n1 := step1.1
  match render (L - n1) msg with
  | (some _, w) => { full := (buf1 ++ w) ++ ['\n'], msgStart := n0 }
  | (none, w) =>
    let b2 := buf1 ++ w
    let b3 := b2.take (L - TRUNCATED_STR_LEN - 1) ++ TRUNCATED_STR
    { full := b3.take (L - 2) ++ ['\n'], msgStart := n0 }

/-- The severity-band test of logv line 160, negated: the sink is skipped iff
severity > loglevel or severity < max_loglevel. -/
def inBand (severity : Int) (lf : Logfile) : Bool :=
  !(severity > lf.loglevel || severity < lf.max_loglevel)

/-- logv line 164: the sink has a live delivery target (an open file, the
syslog flag, or a callback). -/
def hasTarget (lf : Logfile) : Bool :=
  lf.file.isSome || lf.is_syslog || lf.callback

/-- What one dispatch call produces: the registry after the call (sinks whose
write or flush failed are removed), the delivery events in registry order, and
how many times format_msg ran (the formatted flag of logv line 153,
instrumented as a count). -/
structure DispatchOut where
  logfiles : List Logfile
  events : List Event
  fmtCount : Nat
deriving Repr, DecidableEq

/-- The while loop of logv, lines 158-194.  wfail tells which sinks' stream
write fails (fputs or fflush returning EOF), keyed by the ghost sid; full is
the rendered record, tail the suffix end_of_prefix points at; fmted the
formatted flag.  The two continue branches keep the sink and pass the flag on
unchanged; a delivering sink formats first when the flag is still unset;
syslog and callback sinks are delivered via tail; a file sink gets fputs
(recorded as an Event.fileWrite even when the write then fails), and on
failure the sink is deleted from the registry and the loop continues. -/
def logvLoop (wfail : Nat → Bool) (severity : Int) (full tail : List Char) :
    List Logfile → Bool → DispatchOut
  | [], _ => ⟨[], [], 0⟩
  | lf :: rest, fmted =>
    if inBand severity lf = false then
      let o := logvLoop wfail severity full tail rest fmted
      ⟨lf :: o.logfiles, o.events, o.fmtCount⟩
    else if hasTarget lf = false then
      let o := logvLoop wfail severity full tail rest fmted
      ⟨lf :: o.logfiles, o.events, o.fmtCount⟩
    else
      let c : Nat := if fmted then 0 else 1
      if lf.is_syslog then
        let o := logvLoop wfail severity full tail rest true
        ⟨lf :: o.logfiles, Event.syslogSend lf.sid severity tail :: o.events, c + o.fmtCount⟩
      else if lf.callback then
        let o := logvLoop wfail severity full tail rest true
        ⟨lf :: o.logfiles, Event.callbackSend lf.sid severity tail :: o.events, c + o.fmtCount⟩
      else if wfail lf.sid then
        let o := logvLoop wfail severity full tail rest true
        ⟨o.logfiles, Event.fileWrite lf.sid full :: o.events, c + o.fmtCount⟩
      else
        let o := logvLoop wfail severity full tail rest true
        ⟨lf :: o.logfiles, Event.fileWrite lf.sid full :: o.events, c + o.fmtCount⟩

/-- logv, log.c lines 149-195: one dispatch call.  The record is formatted
lazily in the source (only on first match); here it is computed once up
front, which is observationally the same for a pure formatter, and the
fmtCount field of the result counts how often the source would have invoked
format_msg.  The function is total: dispatch always returns, and returns
nothing to the caller. -/
def logv (wfail : Nat → Bool) (pfx : List Char) (severity : Int)
    (funcname : Option (List Char)) (msg : List Char)
    (logfiles : List Logfile) : DispatchOut :=
  let f := format_msg 10024 pfx funcname msg
  logvLoop wfail severity f.full (f.full.drop f.msgStart) logfiles false

/-- add_stream_log, log.c lines 291-301: prepend a new sink for an
already-open stream.  tor_malloc_zero leaves every field not set here false
or NULL.  sid is the ghost identity given to the new record. -/
def add_stream_log (sid : Nat) (loglevelMin loglevelMax : Int) (name : List Char)
    (stream : Nat) (logfiles : List Logfile) : List Logfile :=
  { sid := sid, filename := name, file := some stream, needs_close := false,
    loglevel := loglevelMin, max_loglevel := loglevelMax,
    is_temporary := false, is_syslog := false, callback := false } :: logfiles

/-- Helper for the source lines that mutate the just-prepended head record
(logfiles->is_temporary = 1, logfiles->needs_close = 1). -/
def markHead (f : Logfile → Logfile) : List Logfile → List Logfile
  | [] => []
  | lf :: rest => f lf :: rest

/-- add_temp_log, log.c lines 306-310: a temporary console sink accepting
LOG_INFO..LOG_ERR.  stdoutH is the handle standing for stdout. -/
def add_temp_log (sid stdoutH : Nat) (logfiles : List Logfile) : List Logfile :=
  markHead (fun lf => { lf with is_temporary := true })
    (add_stream_log sid LOG_INFO LOG_ERR ("<temp>".toList) stdoutH logfiles)

/-- add_callback_log, log.c lines 312-323: prepend a callback sink; always
returns 0. -/
def add_callback_log (sid : Nat) (loglevelMin loglevelMax : Int)
    (logfiles : List Logfile) : Int × List Logfile :=
  (0, { sid := sid, filename := "<callback>".toList, file := none,
        needs_close := false, loglevel := loglevelMin,
        max_loglevel := loglevelMax, is_temporary := false,
        is_syslog := false, callback := true } :: logfiles)

/-- The banner text log_tor_version renders into its 256-byte buffer:
the _log_prefix output at LOG_NOTICE, then "Tor VERSION opening new log
file.\n" where "new " appears only when the file offset was zero. -/
def bannerLine (pfx version : List Char) (isNew : Bool) : List Char :=
  let p := logPrefixOut 256 pfx
  let body := "Tor ".toList ++ version ++ " opening ".toList ++
    (if isNew then "new ".toList else []) ++ "log file.\n".toList
  p.2 ++ (render (256 - p.1) body).2

/-- log_tor_version, log.c lines 80-105: decide whether the "opening log
file" banner is written into the sink's stream, and with which text.  isNew
is the ftell test (the stream's current offset is zero); pfx the _log_prefix
output; version the VERSION string.  Returns some bannerText exactly when the
source reaches the fputs at line 104. -/
def log_tor_version (pfx version : List Char) (isNew : Bool) (lf : Logfile)
    (reset : Bool) : Option (List Char) :=
  if lf.needs_close = false then none
  else if lf.is_temporary then none
  else if reset && !isNew then none
  else some (bannerLine pfx version isNew)

/-- add_file_log, log.c lines 355-364.  openResult is the outcome of
fopen(filename, "a") (none when the open failed); isNew the ftell test used
by the banner.  Returns (the C return value, the registry afterwards, the
banner written into the file, if any). -/
def add_file_log (openResult : Option Nat) (sid : Nat) (pfx version : List Char)
    (isNew : Bool) (loglevelMin loglevelMax : Int) (filename : List Char)
    (logfiles : List Logfile) : Int × List Logfile × Option (List Char) :=
  match openResult with
  | none => (-1, logfiles, none)
  | some f =>
    let ls := markHead (fun lf => { lf with needs_close := true })
      (add_stream_log sid loglevelMin loglevelMax filename f logfiles)
    match ls with
    | [] => (0, [], none)
    | lf :: rest => (0, lf :: rest, log_tor_version pfx version isNew lf false)

/-- close_temp_logs, log.c lines 326-340: unlink and release every sink
flagged temporary.  First component: the registry afterwards; second: the
removed records, in iteration order (each is passed to close_log and freed
exactly once). -/
def close_temp_logs : List Logfile → List Logfile × List Logfile
  | [] => ([], [])
  | lf :: rest =>
    let o := close_temp_logs rest
    if lf.is_temporary then (o.1, lf :: o.2) else (lf :: o.1, o.2)

/-- mark_logs_temp, log.c lines 343-348: flag every registered sink
temporary. -/
def mark_logs_temp (logfiles : List Logfile) : List Logfile :=
  logfiles.map (fun lf => { lf with is_temporary := true })

/-- reset_log, log.c lines 276-287, for one sink.  closeOk tells whether
fclose succeeds, reopen the result of fopen(lf->filename, "a") (both keyed by
the ghost sid, standing for that sink's handle and path); isNewAfter the
ftell test on the reopened stream.  A sink without needs_close is returned
untouched (the C function does nothing and returns 0).  For an owned sink,
none means the C function returned -1 (fclose failed, or the reopen did):
the caller deletes the record; otherwise the record with its replaced handle
is returned together with the banner log_tor_version(lf, 1) wrote, if any. -/
def reset_log (closeOk : Nat → Bool) (reopen : Nat → Option Nat)
    (isNewAfter : Nat → Bool) (pfx version : List Char) (lf : Logfile) :
    Option (Logfile × Option (List Char)) :=
  if lf.needs_close then
    if closeOk lf.sid = false then none
    else
      match reopen lf.sid with
      | none => none
      | some f =>
        let lf2 := { lf with file := some f }
        some (lf2, log_tor_version pfx version (isNewAfter lf.sid) lf2 true)
  else some (lf, none)

/-- reset_logs, log.c lines 229-242: walk the registry; a sink whose
reset_log failed is deleted (delete_log) and the walk continues. -/
def reset_logs (closeOk : Nat → Bool) (reopen : Nat → Option Nat)
    (isNewAfter : Nat → Bool) (pfx version : List Char) :
    List Logfile → List Logfile
  | [] => []
  | lf :: rest =>
    match reset_log closeOk reopen isNewAfter pfx version lf with
    | none => reset_logs closeOk reopen isNewAfter pfx version rest
    | some (lf2, _) => lf2 :: reset_logs closeOk reopen isNewAfter pfx version rest

/-- get_min_log_level, log.c lines 409-418: the numerically largest loglevel
bound over the registry, starting from LOG_ERR. -/
def get_min_log_level (logfiles : List Logfile) : Int :=
  logfiles.foldl (fun m lf => if lf.loglevel > m then lf.loglevel else m) LOG_ERR

/-- A sink is deleted by one dispatch call exactly when it matches, has a
live target, is handled by the file branch, and its write fails. -/
def deletedBy (wfail : Nat → Bool) (severity : Int) (lf : Logfile) : Bool :=
  inBand severity lf && hasTarget lf && !lf.is_syslog && !lf.callback && wfail lf.sid

/-- The delivery the dispatcher performs for one matching sink, following the
branch order of logv lines 174-193: syslog first, then callback, then the
file write. -/
def deliveryOf (severity : Int) (full tail : List Char) (lf : Logfile) : Event :=
  if lf.is_syslog then Event.syslogSend lf.sid severity tail
  else if lf.callback then Event.callbackSend lf.sid severity tail
  else Event.fileWrite lf.sid full

/-! ### Concrete fixture sinks used by the witness and counterexample
theorems -/

/-- A registered file sink owning its handle, band LOG_ERR..LOG_INFO. -/
def fileSink : Logfile :=
  { sid := 0, filename := "log1".toList, file := some 10, needs_close := true,
    loglevel := LOG_INFO, max_loglevel := LOG_ERR, is_temporary := false,
    is_syslog := false, callback := false }

/-- A registered callback sink, band LOG_ERR..LOG_ERR. -/
def cbSink : Logfile :=
  { sid := 1, filename := "<callback>".toList, file := none,
    needs_close := false, loglevel := LOG_ERR, max_loglevel := LOG_ERR,
    is_temporary := false, is_syslog := false, callback := true }

/-- A registered stream sink that does not own its handle. -/
def streamSink : Logfile :=
  { sid := 2, filename := "<stdout>".toList, file := some 11,
    needs_close := false, loglevel := LOG_NOTICE, max_loglevel := LOG_ERR,
    is_temporary := false, is_syslog := false, callback := false }

/-! ## Helper lemmas about the dispatcher loop -/

/-- The skip test of logv line 160 is exactly the closed severity band. -/
lemma inBand_iff (severity : Int) (lf : Logfile) :
    inBand severity lf = true ↔
      lf.max_loglevel ≤ severity ∧ severity ≤ lf.loglevel := by
  simp [inBand]
  omega

lemma logvLoop_logfiles (wfail : Nat → Bool) (severity : Int) (full tail : List Char) :
    ∀ (ls : List Logfile) (fmted : Bool),
      (logvLoop wfail severity full tail ls fmted).logfiles =
        ls.filter (fun lf => !(deletedBy wfail severity lf)) := by
  intro ls
  induction ls with
  | nil => intro fmted; rfl
  | cons lf rest ih =>
    intro fmted
    cases h1 : inBand severity lf with
    | false => simp [logvLoop, h1, ih, List.filter_cons, deletedBy]
    | true =>
      cases h2 : hasTarget lf with
      | false => simp [logvLoop, h1, h2, ih, List.filter_cons, deletedBy]
      | true =>
        cases h3 : lf.is_syslog with
        | true => simp [logvLoop, h1, h2, h3, ih, List.filter_cons, deletedBy]
        | false =>
          cases h4 : lf.callback with
          | true => simp [logvLoop, h1, h2, h3, h4, ih, List.filter_cons, deletedBy]
          | false =>
            cases h5 : wfail lf.sid with
            | true => simp [logvLoop, h1, h2, h3, h4, h5, ih, List.filter_cons, deletedBy]
            | false => simp [logvLoop, h1, h2, h3, h4, h5, ih, List.filter_cons, deletedBy]

lemma logvLoop_fmtCount (wfail : Nat → Bool) (severity : Int) (full tail : List Char) :
    ∀ (ls : List Logfile) (fmted : Bool),
      (logvLoop wfail severity full tail ls fmted).fmtCount =
        if fmted then 0
        else if ls.any (fun lf => inBand severity lf && hasTarget lf) then 1 else 0 := by
  intro ls
  induction ls with
  | nil => intro fmted; cases fmted <;> rfl
  | cons lf rest ih =>
    intro fmted
    cases h1 : inBand severity lf with
    | false => simp [logvLoop, h1, ih]
    | true =>
      cases h2 : hasTarget lf with
      | false => simp [logvLoop, h1, h2, ih]
      | true =>
        cases h3 : lf.is_syslog with
        | true => cases fmted <;> simp [logvLoop, h1, h2, h3, ih]
        | false =>
          cases h4 : lf.callback with
          | true => cases fmted <;> simp [logvLoop, h1, h2, h3, h4, ih]
          | false =>
            cases h5 : wfail lf.sid with
            | true => cases fmted <;> simp [logvLoop, h1, h2, h3, h4, h5, ih]
            | false => cases fmted <;> simp [logvLoop, h1, h2, h3, h4, h5, ih]

lemma logvLoop_event_sid (wfail : Nat → Bool) (severity : Int) (full tail : List Char) :
    ∀ (ls : List Logfile) (fmted : Bool) (e : Event),
      e ∈ (logvLoop wfail severity full tail ls fmted).events →
        ∃ s ∈ ls, e.sid = s.sid := by
  intro ls
  induction ls with
  | nil => intro fmted e h; simp [logvLoop] at h
  | cons lf rest ih =>
    intro fmted e h
    cases h1 : inBand severity lf with
    | false =>
      simp only [logvLoop, h1] at h
      obtain ⟨s, hs, he⟩ := ih fmted e (by simpa using h)
      exact ⟨s, List.mem_cons_of_mem _ hs, he⟩
    | true =>
      cases h2 : hasTarget lf with
      | false =>
        simp only [logvLoop, h1, h2] at h
        obtain ⟨s, hs, he⟩ := ih fmted e (by simpa using h)
        exact ⟨s, List.mem_cons_of_mem _ hs, he⟩
      | true =>
        cases h3 : lf.is_syslog with
        | true =>
          simp only [logvLoop, h1, h2, h3] at h
          rcases (by simpa using h : e = Event.syslogSend lf.sid severity tail ∨ _) with he | hmem
          · exact ⟨lf, List.mem_cons_self _ _, by simp [he, Event.sid]⟩
          · obtain ⟨s, hs, he⟩ := ih true e hmem
            exact ⟨s, List.mem_cons_of_mem _ hs, he⟩
        | false =>
          cases h4 : lf.callback with
          | true =>
            simp only [logvLoop, h1, h2, h3, h4] at h
            rcases (by simpa using h : e = Event.callbackSend lf.sid severity tail ∨ _) with he | hmem
            · exact ⟨lf, List.mem_cons_self _ _, by simp [he, Event.sid]⟩
            · obtain ⟨s, hs, he⟩ := ih true e hmem
              exact ⟨s, List.mem_cons_of_mem _ hs, he⟩
          | false =>
            cases h5 : wfail lf.sid with
            | true =>
              simp only [logvLoop, h1, h2, h3, h4, h5] at h
              rcases (by simpa using h : e = Event.fileWrite lf.sid full ∨ _) with he | hmem
              · exact ⟨lf, List.mem_cons_self _ _, by simp [he, Event.sid]⟩
              · obtain ⟨s, hs, he⟩ := ih true e hmem
                exact ⟨s, List.mem_cons_of_mem _ hs, he⟩
            | false =>
              simp only [logvLoop, h1, h2, h3, h4, h5] at h
              rcases (by simpa using h : e = Event.fileWrite lf.sid full ∨ _) with he | hmem
              · exact ⟨lf, List.mem_cons_self _ _, by simp [he, Event.sid]⟩
              · obtain ⟨s, hs, he⟩ := ih true e hmem
                exact ⟨s, List.mem_cons_of_mem _ hs, he⟩

lemma deliveryOf_sid (severity : Int) (full tail : List Char) (lf : Logfile) :
    (deliveryOf severity full tail lf).sid = lf.sid := by
  unfold deliveryOf
  by_cases h3 : lf.is_syslog <;> by_cases h4 : lf.callback <;>
    simp [h3, h4, Event.sid]

lemma logvLoop_events (wfail : Nat → Bool) (severity : Int) (full tail : List Char) :
    ∀ (ls : List Logfile) (fmted : Bool),
      (logvLoop wfail severity full tail ls fmted).events =
        (ls.filter (fun lf => inBand severity lf && hasTarget lf)).map
          (deliveryOf severity full tail) := by
  intro ls
  induction ls with
  | nil => intro fmted; rfl
  | cons lf rest ih =>
    intro fmted
    cases h1 : inBand severity lf with
    | false => simp [logvLoop, h1, ih, List.filter_cons]
    | true =>
      cases h2 : hasTarget lf with
      | false => simp [logvLoop, h1, h2, ih, List.filter_cons]
      | true =>
        cases h3 : lf.is_syslog with
        | true => simp [logvLoop, h1, h2, h3, ih, List.filter_cons, deliveryOf]
        | false =>
          cases h4 : lf.callback with
          | true => simp [logvLoop, h1, h2, h3, h4, ih, List.filter_cons, deliveryOf]
          | false =>
            cases h5 : wfail lf.sid with
            | true => simp [logvLoop, h1, h2, h3, h4, h5, ih, List.filter_cons, deliveryOf]
            | false => simp [logvLoop, h1, h2, h3, h4, h5, ih, List.filter_cons, deliveryOf]

/-- Whether any event of the loop went to the sink identity of lf is exactly
the band-and-target test on lf, provided no other listed sink shares its
identity. -/
lemma logvLoop_any_sid (wfail : Nat → Bool) (severity : Int) (full tail : List Char)
    (ls : List Logfile) (fmted : Bool) (lf : Logfile) (hmem : lf ∈ ls)
    (huniq : ∀ s ∈ ls, s.sid = lf.sid → s = lf) :
    ((logvLoop wfail severity full tail ls fmted).events.any
        (fun e => e.sid == lf.sid)) =
      (inBand severity lf && hasTarget lf) := by
  rw [logvLoop_events]
  have hmap : ∀ (l : List Logfile),
      ((l.map (deliveryOf severity full tail)).any (fun e => e.sid == lf.sid)) =
        l.any (fun s => s.sid == lf.sid) := by
    intro l
    induction l with
    | nil => rfl
    | cons a l ihl => simp [List.any_cons, ihl, deliveryOf_sid]
  rw [hmap]
  clear fmted
  revert hmem huniq
  induction ls with
  | nil => intro hmem _; cases hmem
  | cons s rest ih =>
    intro hmem huniq
    rcases List.mem_cons.mp hmem with hmem | hmem
    · subst hmem
      cases hq : (inBand severity lf && hasTarget lf) with
      | true =>
        simp [List.filter_cons, hq, List.any_cons]
      | false =>
        simp only [List.filter_cons, hq, Bool.false_eq_true, if_false]
        rw [List.any_eq_false]
        intro s hs
        have hs' := List.mem_filter.mp hs
        by_contra hb
        have hsid : s.sid = lf.sid := by
          simpa using hb
        have heq : s = lf := huniq s (List.mem_cons_of_mem _ hs'.1) hsid
        rw [heq] at hs'
        rw [hq] at hs'
        simpa using hs'.2
    · by_cases hsid : s.sid = lf.sid
      · have hself : s = lf := huniq s (List.mem_cons_self _ _) hsid
        subst hself
        cases hq : (inBand severity s && hasTarget s) with
        | true => simp [List.filter_cons, hq, List.any_cons]
        | false =>
          simp only [List.filter_cons, hq, Bool.false_eq_true, if_false]
          rw [ih hmem (fun t ht h => huniq t (List.mem_cons_of_mem _ ht) h)]
          exact hq
      · have hrest := ih hmem (fun t ht h => huniq t (List.mem_cons_of_mem _ ht) h)
        by_cases hq : (inBand severity s && hasTarget s) = true
        · simp only [List.filter_cons, hq, if_true, List.any_cons]
          rw [hrest]
          have hbf : (s.sid == lf.sid) = false := by
            simpa using hsid
          simp [hbf]
        · simp only [List.filter_cons, hq, Bool.false_eq_true, if_false]
          exact hrest

lemma logv_def_eq (wfail : Nat → Bool) (pfx : List Char) (severity : Int)
    (funcname : Option (List Char)) (msg : List Char) (logfiles : List Logfile) :
    logv wfail pfx severity funcname msg logfiles =
      logvLoop wfail severity (format_msg 10024 pfx funcname msg).full
        ((format_msg 10024 pfx funcname msg).full.drop
          (format_msg 10024 pfx funcname msg).msgStart) logfiles false := rfl

/-! ## Claim theorems for the dispatcher -/

/-- C1: for every dispatch call at severity s and every registered sink that
has a live delivery target (an open file, the syslog flag, or a callback) and
whose identity no other registered sink shares, the sink receives the message
(some delivery event of this dispatch goes to it) if and only if
maxSeverityAccepted <= s <= minSeverityAccepted, in the numeric order in
which more critical severities have smaller values. -/
theorem logv_band_filter (wfail : Nat → Bool) (pfx : List Char) (severity : Int)
    (funcname : Option (List Char)) (msg : List Char) (logfiles : List Logfile)
    (lf : Logfile) (hmem : lf ∈ logfiles)
    (huniq : ∀ s ∈ logfiles, s.sid = lf.sid → s = lf)
    (hlive : hasTarget lf = true) :
    ((logv wfail pfx severity funcname msg logfiles).events.any
        (fun e => e.sid == lf.sid)) = true ↔
      lf.max_loglevel ≤ severity ∧ severity ≤ lf.loglevel := by
  rw [logv_def_eq]
  rw [logvLoop_any_sid wfail severity _ _ logfiles false lf hmem huniq]
  rw [hlive]
  rw [Bool.and_true]
  exact inBand_iff severity lf

/-- Witness for C1: the concrete file sink with band LOG_ERR..LOG_INFO
receives a LOG_NOTICE dispatch. -/
theorem logv_band_filter_witness :
    ((logv (fun _ => false) [] LOG_NOTICE none [] [fileSink]).events.any
        (fun e => e.sid == fileSink.sid)) = true :=
  (logv_band_filter (fun _ => false) [] LOG_NOTICE none [] [fileSink] fileSink
      (by decide) (by decide) (by decide)).mpr (by decide)

/-- C2: if the write or flush of the rendered record to a file sink fails
during dispatch, that sink is removed from the registry, while every other
registered sink with a live target still receives the message exactly when
the severity lies in its band; dispatch itself is a total function of the
state, so it returns normally with nothing propagated to the caller. -/
theorem logv_failed_sink_removed (wfail : Nat → Bool) (pfx : List Char)
    (severity : Int) (funcname : Option (List Char)) (msg : List Char)
    (logfiles : List Logfile) (lf : Logfile) (hmem : lf ∈ logfiles)
    (huniq : ∀ s ∈ logfiles, s.sid = lf.sid → s = lf)
    (hfile : lf.file.isSome = true) (hnsys : lf.is_syslog = false)
    (hncb : lf.callback = false) (hband : inBand severity lf = true)
    (hfail : wfail lf.sid = true) :
    ((logv wfail pfx severity funcname msg logfiles).logfiles.all
        (fun s => s.sid != lf.sid)) = true
    ∧ ∀ s ∈ logfiles, s.sid ≠ lf.sid → (∀ t ∈ logfiles, t.sid = s.sid → t = s) →
        hasTarget s = true →
        (((logv wfail pfx severity funcname msg logfiles).events.any
            (fun e => e.sid == s.sid)) = true ↔
          s.max_loglevel ≤ severity ∧ severity ≤ s.loglevel) := by
  constructor
  · rw [logv_def_eq]
    rw [logvLoop_logfiles]
    rw [List.all_eq_true]
    intro s hs
    have hs' := List.mem_filter.mp hs
    rw [bne_iff_ne]
    intro hsid
    have heq : s = lf := huniq s hs'.1 hsid
    have hdel : deletedBy wfail severity lf = true := by
      have htgt : hasTarget lf = true := by
        simp [hasTarget, hfile]
      simp [deletedBy, hband, htgt, hnsys, hncb, hfail]
    rw [heq] at hs'
    rw [hdel] at hs'
    simpa using hs'.2
  · intro s hs _ huniqS hliveS
    rw [logv_def_eq]
    rw [logvLoop_any_sid wfail severity _ _ logfiles false s hs huniqS]
    rw [hliveS]
    rw [Bool.and_true]
    exact inBand_iff severity s

/-- Witness for C2: with the file sink's write failing at LOG_ERR, the sink
is gone from the registry after the dispatch. -/
theorem logv_failed_sink_removed_witness :
    ((logv (fun i => i == 0) [] LOG_ERR none [] [fileSink, cbSink]).logfiles.all
        (fun s => s.sid != fileSink.sid)) = true :=
  (logv_failed_sink_removed (fun i => i == 0) [] LOG_ERR none []
      [fileSink, cbSink] fileSink (by decide) (by decide) (by decide)
      (by decide) (by decide) (by decide) (by decide)).1

/-- C3 (amended): a dispatch call invokes the formatter at most once, and
exactly once when at least one registered sink matches the severity band and
has a live delivery target (zero times otherwise, in particular with an empty
registry); every delivered event carries the single rendered record, either
whole or from its message offset on. -/
theorem logv_formats_once (wfail : Nat → Bool) (pfx : List Char) (severity : Int)
    (funcname : Option (List Char)) (msg : List Char) (logfiles : List Logfile) :
    (logv wfail pfx severity funcname msg logfiles).fmtCount =
      (if logfiles.any (fun lf => inBand severity lf && hasTarget lf)
        then 1 else 0)
    ∧ (logv wfail pfx severity funcname msg logfiles).fmtCount ≤ 1
    ∧ ∀ e ∈ (logv wfail pfx severity funcname msg logfiles).events,
        e.text = (format_msg 10024 pfx funcname msg).full
        ∨ e.text = (format_msg 10024 pfx funcname msg).full.drop
            (format_msg 10024 pfx funcname msg).msgStart := by
  have hcnt : (logv wfail pfx severity funcname msg logfiles).fmtCount =
      (if logfiles.any (fun lf => inBand severity lf && hasTarget lf)
        then 1 else 0) := by
    rw [logv_def_eq]
    rw [logvLoop_fmtCount]
    simp
  refine ⟨hcnt, ?_, ?_⟩
  · rw [hcnt]
    by_cases h : logfiles.any (fun lf => inBand severity lf && hasTarget lf) = true
    · simp [h]
    · simp [h]
  · intro e he
    rw [logv_def_eq] at he
    rw [logvLoop_events] at he
    obtain ⟨s, _, hdel⟩ := List.mem_map.mp he
    rw [← hdel]
    unfold deliveryOf
    by_cases h3 : s.is_syslog <;> by_cases h4 : s.callback <;>
      simp [h3, h4, Event.text]

/-- Counterexample for C3: a dispatch over the empty registry runs the
formatter zero times, not once. -/
theorem logv_formats_once_cex :
    (logv (fun _ => false) [] LOG_NOTICE none [] []).fmtCount ≠ 1 := by
  rw [logv_def_eq]
  decide

/-! ## get_min_log_level lemmas -/

lemma gml_fold_ge :
    ∀ (ls : List Logfile) (i : Int),
      i ≤ ls.foldl (fun m lf => if lf.loglevel > m then lf.loglevel else m) i := by
  intro ls
  induction ls with
  | nil => intro i; exact le_refl i
  | cons a rest ih =>
    intro i
    refine le_trans ?_ (ih (if a.loglevel > i then a.loglevel else i))
    by_cases h : a.loglevel > i
    · simp [h]
      omega
    · simp [h]

lemma gml_fold_ub :
    ∀ (ls : List Logfile) (i : Int) (lf : Logfile), lf ∈ ls →
      lf.loglevel ≤
        ls.foldl (fun m lf => if lf.loglevel > m then lf.loglevel else m) i := by
  intro ls
  induction ls with
  | nil => intro i lf h; cases h
  | cons a rest ih =>
    intro i lf h
    rcases List.mem_cons.mp h with h | h
    · subst h
      refine le_trans ?_ (gml_fold_ge rest (if lf.loglevel > i then lf.loglevel else i))
      by_cases hgt : lf.loglevel > i
      · simp [hgt]
      · simp [hgt]
        omega
    · exact ih (if a.loglevel > i then a.loglevel else i) lf h

lemma gml_fold_attain :
    ∀ (ls : List Logfile) (i : Int),
      ls.foldl (fun m lf => if lf.loglevel > m then lf.loglevel else m) i = i
      ∨ ∃ lf ∈ ls,
          ls.foldl (fun m lf => if lf.loglevel > m then lf.loglevel else m) i
            = lf.loglevel := by
  intro ls
  induction ls with
  | nil => intro i; exact Or.inl rfl
  | cons a rest ih =>
    intro i
    rcases ih (if a.loglevel > i then a.loglevel else i) with h | ⟨lf, hmem, h⟩
    · by_cases hgt : a.loglevel > i
      · refine Or.inr ⟨a, List.mem_cons_self _ _, ?_⟩
        simp only [List.foldl_cons]
        rw [h]
        simp [hgt]
      · refine Or.inl ?_
        simp only [List.foldl_cons]
        rw [h]
        simp [hgt]
    · exact Or.inr ⟨lf, List.mem_cons_of_mem _ hmem, h⟩

/-- C10: get_min_log_level is LOG_ERR on the empty registry; in general it is
an upper bound of every registered minSeverityAccepted, never numerically
below LOG_ERR, and always attained by LOG_ERR itself or by some registered
sink's bound. -/
theorem get_min_log_level_spec (logfiles : List Logfile) :
    get_min_log_level [] = LOG_ERR
    ∧ LOG_ERR ≤ get_min_log_level logfiles
    ∧ (∀ lf ∈ logfiles, lf.loglevel ≤ get_min_log_level logfiles)
    ∧ (get_min_log_level logfiles = LOG_ERR
        ∨ ∃ lf ∈ logfiles, get_min_log_level logfiles = lf.loglevel) := by
  refine ⟨rfl, ?_, ?_, ?_⟩
  · exact gml_fold_ge logfiles LOG_ERR
  · intro lf h
    exact gml_fold_ub logfiles LOG_ERR lf h
  · exact gml_fold_attain logfiles LOG_ERR

/-! ## Severity scale, registration, temporary sinks, banner -/

/-- C5 (amended): the severity scale maps bidirectionally between the five
numeric severities and the lowercase names err, warn, notice, info, debug —
the most critical severity renders as "err", not "error" — parsing is
case-insensitive, round-trips every rendered name, and returns -1 for any
string case-unequal to all five names, without any crash. -/
theorem severity_scale_bidirectional :
    (sev_to_string LOG_ERR = some ("err".toList)
      ∧ sev_to_string LOG_WARN = some ("warn".toList)
      ∧ sev_to_string LOG_NOTICE = some ("notice".toList)
      ∧ sev_to_string LOG_INFO = some ("info".toList)
      ∧ sev_to_string LOG_DEBUG = some ("debug".toList))
    ∧ (parse_log_level ("err".toList) = LOG_ERR
      ∧ parse_log_level ("warn".toList) = LOG_WARN
      ∧ parse_log_level ("notice".toList) = LOG_NOTICE
      ∧ parse_log_level ("info".toList) = LOG_INFO
      ∧ parse_log_level ("debug".toList) = LOG_DEBUG)
    ∧ (∀ (s : Int) (t : List Char), sev_to_string s = some t →
        parse_log_level t = s)
    ∧ (∀ w : List Char,
        lowerEq w ("err".toList) = false → lowerEq w ("warn".toList) = false →
        lowerEq w ("notice".toList) = false →
        lowerEq w ("info".toList) = false →
        lowerEq w ("debug".toList) = false → parse_log_level w = -1) := by
  refine ⟨by decide, by decide, ?_, ?_⟩
  · intro s t h
    unfold sev_to_string at h
    split_ifs at h with h1 h2 h3 h4 h5
    · injection h with ht; subst ht; subst h1; decide
    · injection h with ht; subst ht; subst h2; decide
    · injection h with ht; subst ht; subst h3; decide
    · injection h with ht; subst ht; subst h4; decide
    · injection h with ht; subst ht; subst h5; decide
  · intro w he hw hn hi hd
    have he2 : lowerEq w ['e', 'r', 'r'] = false := he
    have hw2 : lowerEq w ['w', 'a', 'r', 'n'] = false := hw
    have hn2 : lowerEq w ['n', 'o', 't', 'i', 'c', 'e'] = false := hn
    have hi2 : lowerEq w ['i', 'n', 'f', 'o'] = false := hi
    have hd2 : lowerEq w ['d', 'e', 'b', 'u', 'g'] = false := hd
    unfold parse_log_level
    simp [he2, hw2, hn2, hi2, hd2]

/-- Counterexample for C5: the claim predicts that "error" parses to the
Error severity and that Error renders as "error"; the code renders Error as
"err" and parses "error" to -1. -/
theorem severity_scale_cex :
    sev_to_string LOG_ERR ≠ some ("error".toList)
    ∧ parse_log_level ("error".toList) = -1
    ∧ parse_log_level ("error".toList) ≠ LOG_ERR := by
  decide

/-- C7: registering a file sink whose open fails returns -1 (OpenFailed) and
leaves the registry exactly as it was, writing no banner; on success it
returns 0 and prepends a sink that owns its handle (needs_close, so it is
closed on shutdown or removal) and carries the requested band, path and
stream. -/
theorem add_file_log_spec (sid : Nat) (pfx version : List Char) (isNew : Bool)
    (loglevelMin loglevelMax : Int) (filename : List Char)
    (logfiles : List Logfile) :
    add_file_log none sid pfx version isNew loglevelMin loglevelMax filename
        logfiles = (-1, logfiles, none)
    ∧ ∀ h : Nat, ∃ lf : Logfile,
        add_file_log (some h) sid pfx version isNew loglevelMin loglevelMax
            filename logfiles
          = (0, lf :: logfiles, log_tor_version pfx version isNew lf false)
        ∧ lf.needs_close = true ∧ lf.file = some h
        ∧ lf.loglevel = loglevelMin ∧ lf.max_loglevel = loglevelMax
        ∧ lf.filename = filename ∧ lf.is_temporary = false := by
  refine ⟨rfl, ?_⟩
  intro h
  exact ⟨{ sid := sid, filename := filename, file := some h,
           needs_close := true, loglevel := loglevelMin,
           max_loglevel := loglevelMax, is_temporary := false,
           is_syslog := false, callback := false },
         rfl, rfl, rfl, rfl, rfl, rfl, rfl⟩

lemma close_temp_of_marked (olds : List Logfile) :
    close_temp_logs (mark_logs_temp olds) = ([], mark_logs_temp olds) := by
  induction olds with
  | nil => rfl
  | cons a rest ih =>
    simp only [mark_logs_temp, List.map_cons] at *
    simp [close_temp_logs, ih]

/-- C8: mark-all-temporary followed by close-all-temporary removes and
releases exactly the sinks present at mark time (the released list is the
whole marked registry, in order), while the sinks registered after the mark
— none of them flagged temporary — remain, unchanged and in order. -/
theorem mark_then_close_temp (news olds : List Logfile)
    (hnews : ∀ s ∈ news, s.is_temporary = false) :
    close_temp_logs (news ++ mark_logs_temp olds)
      = (news, mark_logs_temp olds) := by
  induction news with
  | nil =>
    simpa using close_temp_of_marked olds
  | cons s rest ih =>
    have hs : s.is_temporary = false := hnews s (List.mem_cons_self _ _)
    have hrest := ih (fun t ht => hnews t (List.mem_cons_of_mem _ ht))
    simp only [List.cons_append, close_temp_logs, hs, List.append_eq,
      Bool.false_eq_true, if_false]
    rw [hrest]

/-- Witness for C8 at a concrete registry: the callback sink added after the
mark survives; the marked file sink is removed and released. -/
theorem mark_then_close_temp_witness :
    close_temp_logs ([cbSink] ++ mark_logs_temp [fileSink])
      = ([cbSink], mark_logs_temp [fileSink]) :=
  mark_then_close_temp [cbSink] [fileSink] (by decide)

/-- C9 (amended): the "opening log file" banner goes only to sinks owning
their handle and not flagged temporary; at registration (reset = false) it is
written whether or not the file is empty (emptiness only selects the "new "
wording), and after a rotation reopen (reset = true) it is written exactly
when the reopened file is empty. -/
theorem banner_when (pfx version : List Char) (isNew : Bool) (lf : Logfile)
    (reset : Bool) :
    (log_tor_version pfx version isNew lf reset).isSome =
      (lf.needs_close && !lf.is_temporary && (!reset || isNew)) := by
  unfold log_tor_version
  cases h1 : lf.needs_close with
  | false => simp [h1]
  | true =>
    cases h2 : lf.is_temporary with
    | true => simp [h1, h2]
    | false =>
      cases reset with
      | false => simp [h1, h2]
      | true => cases isNew <;> simp [h1, h2]

/-- Counterexample for C9: at registration of an owned, non-temporary file
sink over a non-empty file (isNew = false, reset = false) the claim predicts
no banner; the code writes one. -/
theorem banner_when_cex :
    ¬ ((log_tor_version [] [] false fileSink false).isSome = false) := by
  decide

/-! ## Rotation -/

lemma reset_logs_eq_filterMap (closeOk : Nat → Bool) (reopen : Nat → Option Nat)
    (isNewAfter : Nat → Bool) (pfx version : List Char) :
    ∀ ls : List Logfile,
      reset_logs closeOk reopen isNewAfter pfx version ls =
        ls.filterMap
          (fun lf =>
            (reset_log closeOk reopen isNewAfter pfx version lf).map Prod.fst) := by
  intro ls
  induction ls with
  | nil => rfl
  | cons lf rest ih =>
    cases h : reset_log closeOk reopen isNewAfter pfx version lf with
    | none => simp [reset_logs, h, ih]
    | some p =>
      rcases p with ⟨a, b⟩
      simp [reset_logs, h, ih]

lemma reset_log_sid (closeOk : Nat → Bool) (reopen : Nat → Option Nat)
    (isNewAfter : Nat → Bool) (pfx version : List Char) (lf x : Logfile)
    (ban : Option (List Char))
    (h : reset_log closeOk reopen isNewAfter pfx version lf = some (x, ban)) :
    x.sid = lf.sid := by
  unfold reset_log at h
  by_cases h1 : lf.needs_close = true
  · rw [if_pos h1] at h
    by_cases h2 : closeOk lf.sid = false
    · simp [h2] at h
    · rw [if_neg h2] at h
      cases h3 : reopen lf.sid with
      | none => rw [h3] at h; cases h
      | some f =>
        rw [h3] at h
        injection h with h'
        have hx := congrArg Prod.fst h'
        simp at hx
        rw [← hx]
  · rw [if_neg h1] at h
    injection h with h'
    have hx := congrArg Prod.fst h'
    simp at hx
    rw [← hx]

lemma reset_log_not_owned (closeOk : Nat → Bool) (reopen : Nat → Option Nat)
    (isNewAfter : Nat → Bool) (pfx version : List Char) (lf : Logfile)
    (h : lf.needs_close = false) :
    reset_log closeOk reopen isNewAfter pfx version lf = some (lf, none) := by
  simp [reset_log, h]

lemma reset_log_owned_ok (closeOk : Nat → Bool) (reopen : Nat → Option Nat)
    (isNewAfter : Nat → Bool) (pfx version : List Char) (lf : Logfile) (f : Nat)
    (h : lf.needs_close = true) (hc : closeOk lf.sid = true)
    (hr : reopen lf.sid = some f) :
    reset_log closeOk reopen isNewAfter pfx version lf =
      some ({ lf with file := some f },
        log_tor_version pfx version (isNewAfter lf.sid)
          { lf with file := some f } true) := by
  simp [reset_log, h, hc, hr]

lemma reset_log_owned_fail (closeOk : Nat → Bool) (reopen : Nat → Option Nat)
    (isNewAfter : Nat → Bool) (pfx version : List Char) (lf : Logfile)
    (h : lf.needs_close = true)
    (hfail : closeOk lf.sid = false ∨ reopen lf.sid = none) :
    reset_log closeOk reopen isNewAfter pfx version lf = none := by
  rcases hfail with hc | hr
  · simp [reset_log, h, hc]
  · by_cases hc : closeOk lf.sid = false
    · simp [reset_log, h, hc]
    · simp [reset_log, h, hc, hr]

/-- C6: rotation acts on exactly the owned file sinks.  A sink not owning its
handle is in the rotated registry unchanged.  An owned sink whose close and
whose reopen of its own path succeed stays, with only the handle replaced by
the reopened one.  An owned sink whose close or reopen fails is removed
entirely: no sink with its identity remains (identities being unique).  And
the rotated registry contains nothing but descendants of registered sinks. -/
theorem reset_logs_spec (closeOk : Nat → Bool) (reopen : Nat → Option Nat)
    (isNewAfter : Nat → Bool) (pfx version : List Char) (ls : List Logfile)
    (huniq : (ls.map (fun lf => lf.sid)).Nodup) :
    (∀ lf ∈ ls, lf.needs_close = false →
        lf ∈ reset_logs closeOk reopen isNewAfter pfx version ls)
    ∧ (∀ lf ∈ ls, lf.needs_close = true → closeOk lf.sid = true →
        ∀ f, reopen lf.sid = some f →
          { lf with file := some f }
            ∈ reset_logs closeOk reopen isNewAfter pfx version ls)
    ∧ (∀ lf ∈ ls, lf.needs_close = true →
        (closeOk lf.sid = false ∨ reopen lf.sid = none) →
          ∀ s ∈ reset_logs closeOk reopen isNewAfter pfx version ls,
            s.sid ≠ lf.sid)
    ∧ (∀ s ∈ reset_logs closeOk reopen isNewAfter pfx version ls,
        ∃ lf ∈ ls, s.sid = lf.sid) := by
  rw [reset_logs_eq_filterMap]
  refine ⟨?_, ?_, ?_, ?_⟩
  · intro lf hmem h
    refine List.mem_filterMap.mpr ⟨lf, hmem, ?_⟩
    rw [reset_log_not_owned closeOk reopen isNewAfter pfx version lf h]
    rfl
  · intro lf hmem h hc f hr
    refine List.mem_filterMap.mpr ⟨lf, hmem, ?_⟩
    rw [reset_log_owned_ok closeOk reopen isNewAfter pfx version lf f h hc hr]
    rfl
  · intro lf hmem h hfail s hs hsid
    obtain ⟨a, hamem, ha⟩ := List.mem_filterMap.mp hs
    obtain ⟨⟨x, ban⟩, hax, hx⟩ := Option.map_eq_some'.mp ha
    have hsid2 : s.sid = a.sid := by
      have := reset_log_sid closeOk reopen isNewAfter pfx version a x ban hax
      simp only at hx
      rw [hx] at this
      exact this
    have haeq : a = lf := by
      have hinj := List.inj_on_of_nodup_map huniq
      exact hinj hamem hmem (by rw [← hsid2, hsid])
    rw [haeq] at hax
    rw [reset_log_owned_fail closeOk reopen isNewAfter pfx version lf h hfail]
      at hax
    cases hax
  · intro s hs
    obtain ⟨a, hamem, ha⟩ := List.mem_filterMap.mp hs
    obtain ⟨⟨x, ban⟩, hax, hx⟩ := Option.map_eq_some'.mp ha
    refine ⟨a, hamem, ?_⟩
    have := reset_log_sid closeOk reopen isNewAfter pfx version a x ban hax
    simp only at hx
    rw [hx] at this
    exact this

/-- Witness for C6: over a registry holding a non-owning stream sink and an
owned file sink, with close and reopen succeeding, the stream sink is in the
rotated registry untouched. -/
theorem reset_logs_spec_witness :
    streamSink ∈ reset_logs (fun _ => true) (fun _ => some 20) (fun _ => true)
      [] [] [streamSink, fileSink] :=
  (reset_logs_spec (fun _ => true) (fun _ => some 20) (fun _ => true) [] []
      [streamSink, fileSink] (by decide)).1 streamSink (by decide) (by decide)

/-! ## Truncation -/

/-- C4, evaluated at a failing input (capacity 40, a 60-character message):
the rendered record does end with a truncation marker and the single
terminator, and formatting still succeeds — but the marker is
"[...truncated" without its closing bracket, because the newline the source
places at offset buf_len - 2 overwrites the last byte of TRUNCATED_STR; the
record does not end with the full "[...truncated]" before the terminator as
the claim and the TRUNCATED_STR constant itself intend. -/
theorem format_msg_truncation_clobbers_marker :
    (("[...truncated\n".toList).isSuffixOf
        (format_msg 40 ("P ".toList) none (List.replicate 60 'x')).full = true)
    ∧ ((TRUNCATED_STR ++ ['\n']).isSuffixOf
        (format_msg 40 ("P ".toList) none (List.replicate 60 'x')).full
          = false)
    ∧ (format_msg 40 ("P ".toList) none (List.replicate 60 'x')).full.length
        = 37 := by
  decide

end TorLog
